import Mathlib

/-!
Verification development for the ccxt-plus data-retrieval core.

The Python source is shallowly embedded:
* `Mapper` models `src/core/mapper.py` (`BaseMapper.validate`),
* `Task` models `src/core/task.py` (the planner's `initialize_func`),
* `Factory` models `src/core/factory.py` (the two-queue fetch engine,
  serialized under a deterministic one-worker-per-pool schedule),
* `CSVSaver` models `src/core/saver.py` (actions, missing-time grid,
  gap fill, chunked persistence).

Machine integers are embedded as `Int`/`Nat` (Python integers are
unbounded, so no wrap-around is modelled), fallible code returns
`Except PyErr`, and mutable object state is passed explicitly.
-/

/-- Status flag attached to every fetch result
(`DataFlag` in `src/helpers/utils.py`). -/
inductive DataFlag where
  | NORMAL
  | ERROR
deriving DecidableEq, Repr

/-- Python exceptions raised by the embedded code, tagged by class.
`runtimeError` covers `RuntimeError`, `valueError` covers `ValueError`,
the remaining constructors cover the repository's custom exception
classes from `src/helpers/errors.py`. -/
inductive PyErr where
  | runtimeError (msg : String)
  | valueError (msg : String)
  | dataFormatValidation (msg : String)
  | exceedMaxMissingPoints (msg : String)
deriving DecidableEq, Repr

/-- Equality of embedded fallible results is decidable, so concrete
runs of the embedded code can be checked by evaluation. -/
instance {ε α : Type} [DecidableEq ε] [DecidableEq α] :
    DecidableEq (Except ε α)
  | .error e, .error e' =>
    match decEq e e' with
    | isTrue h => isTrue (by rw [h])
    | isFalse h => isFalse (by intro hc; cases hc; exact h rfl)
  | .error _, .ok _ => isFalse (by intro hc; cases hc)
  | .ok _, .error _ => isFalse (by intro hc; cases hc)
  | .ok a, .ok a' =>
    match decEq a a' with
    | isTrue h => isTrue (by rw [h])
    | isFalse h => isFalse (by intro hc; cases hc; exact h rfl)

namespace Mapper

/-- One raw row handed to the mapper: a fixed-width list of scalar
fields (embedded as integers; only row widths matter to `validate`). -/
abbrev MRow := List Int

/-- Embeds `BaseMapper.validate` from `src/core/mapper.py`.  The
class-level mutable `_validated` flag is passed in and returned
explicitly: the call is a no-op once the flag is set, otherwise every
row's width is compared against the declared column count and a
`DataFormatValidationError` is raised at the first mismatch, after
which the flag becomes `true`.  (The `columns is None` guard of the
source is outside this model: `columns` is always a concrete list.) -/
def validate (validated : Bool) (columns : List String) (data : List MRow) :
    Except PyErr Bool :=
  if validated then .ok validated
  else
    match data.find? (fun row => row.length ≠ columns.length) with
    | some row =>
        .error (.dataFormatValidation
          s!"Row length {row.length} does not match expected columns {columns.length}")
    | none => .ok true

end Mapper

namespace Task

/-- One raw row returned by a probe fetch; the time value sits at
index 0 (`test_data[0][0]` in the source). -/
abbrev TRow := List Int

/-- The plan produced by a successful `initialize_func` run: the values
assigned to `timestamp_list`, `online_worker_count` and
`local_worker_count` in `src/core/task.py`. -/
structure TaskPlan where
  timestampList : List Int
  onlineWorkerCount : Nat
  localWorkerCount : Nat
deriving DecidableEq, Repr

/-- Embeds Python `range(start, stop, step)` for a positive step:
the ascending list `start, start+step, ...` of values below `stop`. -/
def pyRange (start stop : Int) (step : Nat) : List Int :=
  (List.range (((stop - start) + (step : Int) - 1).ediv step).toNat).map
    (fun k => start + k * (step : Int))

/-- The `test_data` local of the probing loop: the raw page of the
`i`-th probe call, passed through `map_func` when one was supplied. -/
def mappedData (probe : Nat → DataFlag × List TRow)
    (mapF : Option (List TRow → List TRow)) (i : Nat) : List TRow :=
  match mapF with
  | some g => g (probe i).2
  | none => (probe i).2

/-- Embeds the probing loop of `Task._build_initialize_func.initialize_func`
(`src/core/task.py`).  `probe i` is the result of the `i`-th
`fetch_func` call, `mapF` the optional `map_func`, `attemptsLeft` the
`attempt_times` countdown that starts at `Config("MAX_ATTEMPT_TIMES")`.
On a `NORMAL`, non-empty (mapped) page the step `delta` is the absolute
difference of the first and last row's time; `delta == 0` makes Python's
`range` raise `ValueError`, otherwise the timestamp list and the two
pool sizes are returned.  Exhausting all attempts raises
`RuntimeError`.  Probe pages are assumed non-empty rows of width ≥ 1
(rows carry their time at index 0), matching every mapper in the repo. -/
def initializeFunc (probe : Nat → DataFlag × List TRow)
    (mapF : Option (List TRow → List TRow))
    (untilT : Int) (threadCount localRatio : Nat) :
    Nat → Nat → Except PyErr TaskPlan
  | _, 0 => .error (.runtimeError "Failed to generate task, maximum attempts exhausted")
  | i, n + 1 =>
    let flag := (probe i).1
    let testData := mappedData probe mapF i
    if flag = DataFlag.NORMAL ∧ testData ≠ [] then
      let t0 := (testData.headD []).headD 0
      let tl := (testData.getLastD []).headD 0
      let delta := (t0 - tl).natAbs
      if delta = 0 then .error (.valueError "range() arg 3 must not be zero")
      else
        .ok { timestampList := pyRange t0 untilT delta
              onlineWorkerCount := threadCount
              localWorkerCount := max 1 (threadCount / localRatio) }
    else
      initializeFunc probe mapF untilT threadCount localRatio (i + 1) n

/-- A probe call fails the planner's success test when its flag is not
`NORMAL` or its (mapped) result is empty. -/
def probeFails (probe : Nat → DataFlag × List TRow)
    (mapF : Option (List TRow → List TRow)) (i : Nat) : Prop :=
  ¬ ((probe i).1 = DataFlag.NORMAL ∧ mappedData probe mapF i ≠ [])

instance (probe : Nat → DataFlag × List TRow) (mapF : Option (List TRow → List TRow))
    (i : Nat) : Decidable (probeFails probe mapF i) := by
  unfold probeFails; infer_instance

end Task

namespace Factory

/-- One raw row cached by the engine (`_cached_raw_data` holds whatever
the fetch collaborator returned; fields embedded as integers). -/
abbrev FRow := List Int

/-- One item of the local queue: `(ts, data, flag, attempt_times + 1)`
as pushed by `Factory._online_worker`. -/
abbrev LocalItem := Int × List FRow × DataFlag × Nat

/-- The mutable state of a `Factory` instance (`src/core/factory.py`):
the two FIFO queues, the stop event, the first-writer-wins abnormal
termination slot and the accumulator.  `fetchLog` additionally records
every `(ts, attempt)` pair at which `fetch_data_callback` is invoked,
so that fetch counts can be stated. -/
structure FacState where
  onlineQ : List (Int × Nat)
  localQ : List LocalItem
  stopEvent : Bool
  abnormalInfo : Option String
  cachedRawData : List FRow
  fetchLog : List (Int × Nat)
deriving DecidableEq, Repr

/-- The abnormal-termination message written by `_online_worker` when a
unit's `attempt_times` exceeds `max_attempts` (the source interpolates
`attempt_times - 1` and the timestamp). -/
def abnormalMsg (attemptTimes : Nat) (ts : Int) : String :=
  s!"Exceeded max attempts ({attemptTimes - 1}) for timestamp ({ts})."

/-- One iteration body of `_online_worker` for a dequeued unit
`(ts, a)`: if `a > max_attempts`, atomically set the stop event and
write the abnormal slot if it is still empty; then (in either case)
invoke the fetch callback and push the result onto the local queue.
`f ts a` is the outcome of the fetch for `ts` at attempt counter `a`
(each unit is fetched with strictly increasing counters, so indexing
the nondeterministic remote by the counter is faithful). -/
def onlineItem (f : Int → Nat → DataFlag × List FRow) (maxAttempts : Nat)
    (st : FacState) (ts : Int) (a : Nat) : FacState :=
  let st1 :=
    if a > maxAttempts then
      { st with
        stopEvent := true
        abnormalInfo :=
          match st.abnormalInfo with
          | none => some (abnormalMsg a ts)
          | some e => some e }
    else st
  let r := f ts a
  { st1 with
    localQ := st1.localQ ++ [(ts, r.2, r.1, a + 1)]
    fetchLog := st1.fetchLog ++ [(ts, a)] }

/-- The `_online_worker` loop, serialized: the stop event is consulted
at the top of each iteration; a set stop event leaves the remaining
units in the online queue (they are never acknowledged).  The queue
contents are the list argument; `st.onlineQ` is empty on entry. -/
def onlineLoop (f : Int → Nat → DataFlag × List FRow) (maxAttempts : Nat) :
    List (Int × Nat) → FacState → FacState
  | [], st => st
  | (ts, a) :: rest, st =>
    if st.stopEvent then { st with onlineQ := st.onlineQ ++ (ts, a) :: rest }
    else onlineLoop f maxAttempts rest (onlineItem f maxAttempts st ts a)

/-- One iteration body of `_local_worker` for a dequeued result: a
`NORMAL` flag appends non-empty data to the accumulator, any other flag
re-enqueues `(ts, attempt_times)` onto the online queue. -/
def localItem (st : FacState) (ts : Int) (data : List FRow) (flag : DataFlag)
    (a : Nat) : FacState :=
  if flag = DataFlag.NORMAL then
    if data ≠ [] then { st with cachedRawData := st.cachedRawData ++ data } else st
  else
    { st with onlineQ := st.onlineQ ++ [(ts, a)] }

/-- The `_local_worker` loop, serialized; as in `onlineLoop` the stop
event is consulted at the top of each iteration and a set stop event
leaves the remaining results in the local queue. -/
def localLoop : List LocalItem → FacState → FacState
  | [], st => st
  | (ts, data, flag, a) :: rest, st =>
    if st.stopEvent then { st with localQ := st.localQ ++ (ts, data, flag, a) :: rest }
    else localLoop rest (localItem st ts data flag a)

/-- One engine round under the serialized schedule: the online pool
runs until its queue is empty (or stopped), then the local pool runs
until its queue is empty (or stopped).  This is one admissible
interleaving of the two worker pools of `Factory`. -/
def roundStep (f : Int → Nat → DataFlag × List FRow) (maxAttempts : Nat)
    (st : FacState) : FacState :=
  let st1 := onlineLoop f maxAttempts st.onlineQ { st with onlineQ := [] }
  localLoop st1.localQ { st1 with localQ := [] }

/-- Iterated rounds, with fuel standing in for the blocking
`Queue.join` calls of `Factory.complete`: rounds are run until both
queues are drained or the stop event is observed. -/
def runRounds (f : Int → Nat → DataFlag × List FRow) (maxAttempts : Nat) :
    Nat → FacState → FacState
  | 0, st => st
  | fuel + 1, st =>
    if st.onlineQ = [] ∧ st.localQ = [] then st
    else if st.stopEvent then st
    else runRounds f maxAttempts fuel (roundStep f maxAttempts st)

/-- `Factory._initialize_flow_line`: every planned timestamp is seeded
into the online queue as `(ts, 0)`, everything else starts empty. -/
def initState (plan : List Int) : FacState :=
  { onlineQ := plan.map (fun ts => (ts, 0))
    localQ := []
    stopEvent := false
    abnormalInfo := none
    cachedRawData := []
    fetchLog := [] }

/-- `Factory.complete` under the serialized schedule: seed the online
queue, run the two pools until drained, then raise the abnormal slot's
message if it was written and return the accumulator otherwise. -/
def complete (f : Int → Nat → DataFlag × List FRow) (maxAttempts : Nat)
    (plan : List Int) (fuel : Nat) : Except String (List FRow) :=
  let st := runRounds f maxAttempts fuel (initState plan)
  match st.abnormalInfo with
  | some e => .error e
  | none => .ok st.cachedRawData

/-- `true` when every fetch of `ts` at attempts `0, …, r-1` came back
`ERROR`, i.e. the unit is still being retried when round `r` starts. -/
def allErrBefore (f : Int → Nat → DataFlag × List FRow) (ts : Int) (r : Nat) : Bool :=
  (List.range r).all (fun j => (f ts j).1 = DataFlag.ERROR)

/-- The planned units still in flight when round `r` starts. -/
def survivors (f : Int → Nat → DataFlag × List FRow) (plan : List Int) (r : Nat) :
    List Int :=
  plan.filter (fun ts => allErrBefore f ts r)

/-- Accumulator contents after rounds `0, …, r-1`: each round appends,
in queue order, the data of the units whose fetch at that round's
attempt counter came back `NORMAL`. -/
def cacheUpTo (f : Int → Nat → DataFlag × List FRow) (plan : List Int) :
    Nat → List FRow
  | 0 => []
  | r + 1 =>
    cacheUpTo f plan r ++
      (((survivors f plan r).filter (fun ts => (f ts r).1 = DataFlag.NORMAL)).map
        (fun ts => (f ts r).2)).flatten

/-- Fetch log after rounds `0, …, r-1`. -/
def logUpTo (f : Int → Nat → DataFlag × List FRow) (plan : List Int) :
    Nat → List (Int × Nat)
  | 0 => []
  | r + 1 => logUpTo f plan r ++ (survivors f plan r).map (fun ts => (ts, r))

/-- The canonical engine state at the start of round `r`, while no unit
has exceeded the bound. -/
def stateAt (f : Int → Nat → DataFlag × List FRow) (plan : List Int) (r : Nat) :
    FacState :=
  { onlineQ := (survivors f plan r).map (fun ts => (ts, r))
    localQ := []
    stopEvent := false
    abnormalInfo := none
    cachedRawData := cacheUpTo f plan r
    fetchLog := logUpTo f plan r }

/-- Rows a unit contributes: the data of its first `NORMAL` fetch among
attempts `0, …, r-1`, and nothing if all of them errored. -/
def rowsAcc (f : Int → Nat → DataFlag × List FRow) (r : Nat) (ts : Int) :
    List FRow :=
  match (List.range r).find? (fun k => (f ts k).1 = DataFlag.NORMAL) with
  | some k => (f ts k).2
  | none => []

end Factory

namespace Utils

/-- Seconds per timeframe unit (`_TIMEFRAME_MAPPING` in
`src/helpers/utils.py`); an unknown unit is a `KeyError`. -/
def timeframeUnit : Char → Option Nat
  | 's' => some 1
  | 'm' => some 60
  | 'h' => some 3600
  | 'd' => some 86400
  | 'w' => some 604800
  | 'M' => some 2628000
  | _ => none

/-- Decimal value of a digit string (`int(...)` restricted to the
non-negative literals the timeframe strings use; `none` models the
`ValueError` on anything else, including the empty string). -/
def parseNatChars (l : List Char) (acc : Nat) : Option Nat :=
  match l with
  | [] => some acc
  | c :: cs =>
    if c.isDigit then parseNatChars cs (acc * 10 + (c.toNat - 48)) else none

/-- Embeds `timeframe_to_timestamp(timeframe, unit="ms")`: the numeric
prefix times the last character's unit seconds times 1000.  `none`
models the `KeyError`/`ValueError` Python raises on a malformed string. -/
def timeframe_to_timestamp (tf : String) : Option Int :=
  match tf.data.getLast? with
  | none => none
  | some u =>
    match timeframeUnit u, (match tf.data.dropLast with
      | [] => none
      | ds => parseNatChars ds 0) with
    | some secs, some n => some ((secs : Int) * n * 1000)
    | _, _ => none

/-- Left-pads the decimal representation of `n` to two digits. -/
def pad2 (n : Nat) : String :=
  if n < 10 then "0" ++ toString n else toString n

/-- Left-pads the decimal representation of `n` to four digits. -/
def pad4 (n : Nat) : String :=
  if n < 10 then "000" ++ toString n
  else if n < 100 then "00" ++ toString n
  else if n < 1000 then "0" ++ toString n
  else toString n

/-- Proleptic-Gregorian date of a day count relative to 1970-01-01
(the civil-from-days algorithm used by every datetime library). -/
def civilFromDays (z0 : Int) : Int × Nat × Nat :=
  let z := z0 + 719468
  let era := z.ediv 146097
  let doe := z - era * 146097
  let yoe := (doe - doe.ediv 1460 + doe.ediv 36524 - doe.ediv 146096).ediv 365
  let doy := doe - (365 * yoe + yoe.ediv 4 - yoe.ediv 100)
  let mp := (5 * doy + 2).ediv 153
  let d := doy - (153 * mp + 2).ediv 5 + 1
  let m := if mp < 10 then mp + 3 else mp - 9
  let y := yoe + era * 400 + (if m ≤ 2 then 1 else 0)
  (y, m.toNat, d.toNat)

/-- Embeds `timestamp_to_datetime(timestamp, unit="ms")`: truncating
division by 1000 (Python's `int(int(timestamp) / rate)`), then the UTC
datetime formatted as `%Y-%m-%d %H:%M:%S`. -/
def timestamp_to_datetime (timestamp : Int) : String :=
  let secs := Int.tdiv timestamp 1000
  let days := secs.ediv 86400
  let sod := (secs.emod 86400).toNat
  let ymd := civilFromDays days
  let year := if ymd.1 < 0 then toString ymd.1 else pad4 ymd.1.toNat
  year ++ "-" ++ pad2 ymd.2.1 ++ "-" ++ pad2 ymd.2.2 ++ " " ++
    pad2 (sod / 3600) ++ ":" ++ pad2 (sod % 3600 / 60) ++ ":" ++ pad2 (sod % 60)

end Utils

namespace CSVSaver

/-- One table cell: an integer scalar, or the string a cell becomes
after the `transfer_time` action. -/
inductive Cell where
  | int (z : Int)
  | str (s : String)
deriving DecidableEq, Repr

/-- One table row (fixed width, one cell per declared column). -/
abbrev Row := List Cell

/-- The cell of the designated time column of a row. -/
def timeCell (tIdx : Nat) (r : Row) : Cell :=
  r.getD tIdx (.int 0)

/-- Integer value of a cell; callers reach this only after the
`astype(np.int64)` conversion succeeded, so the `str` branch is dead. -/
def cellIntD : Cell → Int
  | .int z => z
  | .str _ => 0

/-- Integer time value of a row (its time cell after `astype`). -/
def timeInt (tIdx : Nat) (r : Row) : Int :=
  cellIntD (timeCell tIdx r)

/-- Integer value of a cell, erring on strings: models
`astype(np.int64)` applied to a column holding non-numeric strings. -/
def cellInt : Cell → Except PyErr Int
  | .int z => .ok z
  | .str s => .error (.valueError s!"invalid literal for int64: {s}")

/-- Total order on cells backing the model's sort (all comparisons the
claims exercise are between integer cells; the remaining branches make
the order total so the sort is well defined on any table state). -/
def cellLe : Cell → Cell → Bool
  | .int a, .int b => a ≤ b
  | .int _, .str _ => true
  | .str _, .int _ => false
  | .str a, .str b => a ≤ b

/-- The sort key relation of `_sort`: compare rows by their time cell. -/
def RowLE (tIdx : Nat) (r1 r2 : Row) : Prop :=
  cellLe (timeCell tIdx r1) (timeCell tIdx r2) = true

instance (tIdx : Nat) : DecidableRel (RowLE tIdx) := by
  unfold RowLE; infer_instance

instance (tIdx : Nat) : IsTotal Row (RowLE tIdx) where
  total a b := by
    unfold RowLE
    rcases timeCell tIdx a with z1 | s1 <;> rcases timeCell tIdx b with z2 | s2 <;>
      simp [cellLe] <;> exact le_total _ _

instance (tIdx : Nat) : IsTrans Row (RowLE tIdx) where
  trans a b c := by
    unfold RowLE
    rcases timeCell tIdx a with z1 | s1 <;> rcases timeCell tIdx b with z2 | s2 <;>
      rcases timeCell tIdx c with z3 | s3 <;> simp [cellLe] <;>
      exact fun h1 h2 => le_trans h1 h2

/-- Read-only configuration the saver consumes (`Config` keys plus the
constructor arguments of `CSVSaver`). -/
structure SaverCfg where
  timeframe : Option String
  allowMaxMissing : Nat
  chunkSize : Nat
  tIdx : Nat
deriving DecidableEq, Repr

/-- The mutable state of a `CSVSaver` instance: the working table
`_df`, the cached `_missing_times`, plus the files the instance has
written (the sidecar report's lines and the chunk files' row blocks),
so that persistence effects can be stated. -/
structure SaverState where
  df : List Row
  missingTimes : Option (List Int)
  missingFile : Option (List String)
  outFiles : List (List Row)
deriving DecidableEq, Repr

/-- `_sort` with its default `ascending=True` (action dispatch always
calls it with no arguments): the table sorted by the time column, as
the stable sort the specification prescribes for this action.
Divergence, disclosed: the source's `DataFrame.sort_values` call leaves
the default `kind='quicksort'`, which is unstable, so the source gives
no guarantee on the relative order of rows with tied time values —
there is no specified tie permutation to embed.  This model therefore
adopts the specified stable semantics; the consequence for row-order
idempotence of the real code is recorded at claim C9. -/
def sortAction (cfg : SaverCfg) (st : SaverState) : SaverState :=
  { st with df := st.df.insertionSort (RowLE cfg.tIdx) }

/-- Keep-first deduplication by time key: remove every row whose time
value already occurred earlier in the table, preserving order. -/
def dropDupKeepFirst (tIdx : Nat) : List Row → List Row
  | [] => []
  | r :: rs =>
    r :: dropDupKeepFirst tIdx
      (rs.filter (fun r2 => timeCell tIdx r2 ≠ timeCell tIdx r))
termination_by l => l.length
decreasing_by
  exact Nat.lt_succ_of_le (List.length_filter_le _ _)

/-- `_drop_duplicates`: embedding of
`DataFrame.drop_duplicates(subset=[time], keep="first")`. -/
def dropDuplicatesAction (cfg : SaverCfg) (st : SaverState) : SaverState :=
  { st with df := dropDupKeepFirst cfg.tIdx st.df }

/-- `_drop_last`: `self._df = self._df.iloc[:-1]`. -/
def dropLastAction (st : SaverState) : SaverState :=
  { st with df := st.df.dropLast }

/-- `_transfer_time`: rewrite every time cell through
`timestamp_to_datetime`; a cell that is already a string makes the
underlying `int()` conversion raise. -/
def transferTimeAction (cfg : SaverCfg) (st : SaverState) : Except PyErr SaverState := do
  let df' ← st.df.mapM (fun r => do
    let t ← cellInt (timeCell cfg.tIdx r)
    pure (r.set cfg.tIdx (.str (Utils.timestamp_to_datetime t))))
  pure { st with df := df' }

/-- The expected fixed-cadence grid, embedding
`np.arange(min_time, max_time + delta, delta)` for a positive step:
the values `lo + k*delta` strictly below `hi + delta`. -/
def arangeGrid (lo hi delta : Int) : List Int :=
  (List.range ((hi - lo + 2 * delta - 1).ediv delta).toNat).map
    (fun k => lo + k * delta)

/-- Minimum of a list of integers (the `[]` case is unreachable at
every call site: callers check the table is non-empty first). -/
def listMin : List Int → Int
  | [] => 0
  | t :: ts => ts.foldl min t

/-- Maximum of a list of integers (`[]` unreachable, as in `listMin`). -/
def listMax : List Int → Int
  | [] => 0
  | t :: ts => ts.foldl max t

/-- The missing timestamps of a time column: the expected grid minus
the present values.  The Python source materialises both sides as sets
and later applies `sorted`; since the grid is strictly ascending and
duplicate-free for a positive step, filtering the grid list yields
exactly that sorted list. -/
def missingList (times : List Int) (delta : Int) : List Int :=
  (arangeGrid (listMin times) (listMax times) delta).filter
    (fun t => ¬ t ∈ times)

/-- Embeds `_initialize_missing_times`: returns the flag the source
returns (`false` only for an empty table) together with the updated
state.  Failure cases: no timeframe (`ValueError`), a time column that
`astype(np.int64)` cannot convert, a malformed or zero-step timeframe
(`np.arange` raises on a zero step), and a missing-point count above
`Config("ALLOW_MAX_MISSING_TIMESTAMPS")`
(`ExceedMaxMissingPointsError`). -/
def initializeMissingTimes (cfg : SaverCfg) (st : SaverState) :
    Except PyErr (Bool × SaverState) :=
  if st.missingTimes.isSome then
    .ok (true, st)
  else
    match cfg.timeframe with
    | none => .error (.valueError "Missing timeframe, cannot retrieve missing times")
    | some tf =>
      if st.df = [] then
        .ok (false, st)
      else
        match st.df.mapM (fun r => cellInt (timeCell cfg.tIdx r)) with
        | .error e => .error e
        | .ok times =>
          match Utils.timeframe_to_timestamp tf with
          | none => .error (.valueError s!"invalid timeframe: {tf}")
          | some delta =>
            if delta ≤ 0 then
              .error (.valueError "arange: zero step")
            else if missingList times delta = [] then
              .ok (true, { st with missingTimes := some [] })
            else if (missingList times delta).length > cfg.allowMaxMissing then
              .error (.exceedMaxMissingPoints
                s!"Too many missing time points: {(missingList times delta).length}")
            else
              .ok (true, { st with missingTimes := some (missingList times delta) })

/-- Embeds `np.searchsorted(arr, v, side='left')` under its documented
contract for sorted input: the first index whose element is not below
`v`, i.e. the number of elements below `v`. -/
def searchsortedL (arr : List Int) (v : Int) : Nat :=
  arr.countP (fun x => x < v)

/-- Python `min` over `(distance, index)` candidates: the first
candidate with minimal distance (`min` with `key=lambda x: x[0]`). -/
def pyMinByDist : List (Nat × Nat) → Option (Nat × Nat)
  | [] => none
  | c :: cs => some (cs.foldl (fun acc x => if x.1 < acc.1 then x else acc) c)

/-- The per-missing-timestamp body of `_fix_data_integrity`: locate the
insertion position, gather the predecessor/successor candidates with
their absolute time distances, take the closest (predecessor first on a
tie), clone that row and overwrite its time cell. -/
def synthesizeRow (df : List Row) (arr : List Int) (tIdx : Nat) (ts : Int) :
    Option Row :=
  let pos := searchsortedL arr ts
  let candidates :=
    (if 0 < pos then [((arr.getD (pos - 1) 0 - ts).natAbs, pos - 1)] else []) ++
    (if pos < arr.length then [((arr.getD pos 0 - ts).natAbs, pos)] else [])
  match pyMinByDist candidates with
  | none => none
  | some c => some ((df.getD c.2 []).set tIdx (.int ts))

/-- `_append_data`: the new rows are concatenated below the table. -/
def appendData (st : SaverState) (rows : List Row) : SaverState :=
  { st with df := st.df ++ rows }

/-- Embeds `_fix_data_integrity`: compute (or reuse) the missing
timestamps, synthesize one replacement row per missing timestamp from
the fixed snapshot of the time column, append them in one batch and
re-sort.  An empty candidate list (empty table) is Python's
`min(()) `-raises case and is unreachable here. -/
def fixIntegrityAction (cfg : SaverCfg) (st : SaverState) :
    Except PyErr SaverState :=
  match initializeMissingTimes cfg st with
  | .error e => .error e
  | .ok (flag, st1) =>
    if ¬ flag then .ok st
    else if st1.missingTimes.getD [] = [] then .ok st1
    else
      match (st1.missingTimes.getD []).mapM (fun ts =>
          match synthesizeRow st1.df (st1.df.map (timeInt cfg.tIdx)) cfg.tIdx ts with
          | some r => Except.ok r
          | none => Except.error (PyErr.valueError "min() arg is an empty sequence")) with
      | .error e => .error e
      | .ok newData => .ok (sortAction cfg (appendData st1 newData))

/-- Embeds `_save_missing_times`: write one sidecar line per missing
timestamp (human-readable time plus the raw value); no file when the
table was empty or nothing is missing. -/
def saveMissingTimesAction (cfg : SaverCfg) (st : SaverState) :
    Except PyErr SaverState :=
  match initializeMissingTimes cfg st with
  | .error e => .error e
  | .ok (flag, st1) =>
    if ¬ flag then .ok st
    else if st1.missingTimes.getD [] = [] then .ok st1
    else
      .ok { st1 with
        missingFile := some ((st1.missingTimes.getD []).map (fun t =>
          s!"{Utils.timestamp_to_datetime t} ({t})")) }

/-- The action table built from the `@_id(...)`-tagged methods of
`CSVSaver` (reflection in the source, an explicit mapping here). -/
def getAction (cfg : SaverCfg) :
    String → Option (SaverState → Except PyErr SaverState)
  | "sort" => some (fun st => .ok (sortAction cfg st))
  | "drop_duplicates" => some (fun st => .ok (dropDuplicatesAction cfg st))
  | "drop_last" => some (fun st => .ok (dropLastAction st))
  | "transfer_time" => some (transferTimeAction cfg)
  | "save_missing_times" => some (saveMissingTimesAction cfg)
  | "fix_integrity" => some (fixIntegrityAction cfg)
  | _ => none

/-- The action loop of `save`: a registered action runs (its fatal
error propagating), an unknown name only logs a warning and is
skipped. -/
def runActions (cfg : SaverCfg) : List String → SaverState → Except PyErr SaverState
  | [], st => .ok st
  | a :: rest, st =>
    match getAction cfg a with
    | some act =>
      match act st with
      | .error e => .error e
      | .ok st' => runActions cfg rest st'
    | none => runActions cfg rest st

/-- Contiguous chunks of `c` rows (the slices `df.iloc[i : i + c]` for
`i = 0, c, 2c, …`). -/
def chunksOf (c : Nat) (l : List Row) : List (List Row) :=
  if h : c = 0 ∨ l = [] then []
  else l.take c :: chunksOf c (l.drop c)
termination_by l.length
decreasing_by
  push_neg at h
  cases l with
  | nil => exact absurd rfl h.2
  | cons x xs =>
    simp only [List.length_drop, List.length_cons]
    omega

/-- Embeds `_save_file`: the final table is written as sequentially
numbered chunk files of `Config("CSV_CHUNK_SIZE")` rows each
(`range` raises when the configured chunk size is zero). -/
def saveFile (cfg : SaverCfg) (st : SaverState) : Except PyErr SaverState :=
  if cfg.chunkSize = 0 then .error (.valueError "range() arg 3 must not be zero")
  else .ok { st with outFiles := chunksOf cfg.chunkSize st.df }

/-- Embeds `CSVSaver.save`: append the processed rows, run the
requested actions in order, then write the chunk files. -/
def save (cfg : SaverCfg) (actions : List String) (st : SaverState)
    (rows : List Row) : Except PyErr SaverState :=
  match runActions cfg actions (appendData st rows) with
  | .error e => .error e
  | .ok st2 => saveFile cfg st2

/-- The expected grid as the specification words it: the set
`min, min+step, …, max`, i.e. the multiples of the step from
`min` that do not exceed `max`.  Stated from the spec, for comparison
with `arangeGrid`. -/
def specExpectedGrid (lo hi delta : Int) : List Int :=
  (List.range (((hi - lo).ediv delta).toNat + 1)).map (fun k => lo + k * delta)

/-- The missing set as the specification words it: the expected set
minus the present set.  Stated from the spec, for comparison with
`missingList`. -/
def specMissingSet (times : List Int) (delta : Int) : Finset Int :=
  (specExpectedGrid (listMin times) (listMax times) delta).toFinset \ times.toFinset

end CSVSaver

/-!
Theorems.  Claim theorems are named `claimN_...`; the remaining
theorems are shared helper lemmas.
-/

section MapperTheorems

open Mapper

/-- C7 counterexample: once one call has completed without raising
(here on an empty row list), the class-level `_validated` flag is set
and a later call with a row of the wrong width (3 fields against 2
declared columns) raises nothing, contradicting the claim that every
call checks every row regardless of previous calls. -/
theorem claim7_counterexample :
    Mapper.validate false ["time", "rate"] [] = .ok true ∧
    Mapper.validate true ["time", "rate"] [[1, 2, 3]] = .ok true := by
  decide

/-- C7 amended: only a call made while the `_validated` flag is still
unset checks row widths — such a call raises a
`DataFormatValidationError` exactly when some row's length differs from
the declared column count; once the flag is set, `validate` is a no-op
returning `True`. -/
theorem claim7_validate_first_call_only (columns : List String)
    (data : List Mapper.MRow) :
    Mapper.validate true columns data = .ok true ∧
    ((∃ e, Mapper.validate false columns data = .error e) ↔
      ∃ row ∈ data, row.length ≠ columns.length) ∧
    (Mapper.validate false columns data = .ok true ↔
      ∀ row ∈ data, row.length = columns.length) := by
  refine ⟨rfl, ?_, ?_⟩ <;>
    rcases hf : data.find? (fun row => !decide (row.length = columns.length))
      with _ | row
  · rw [List.find?_eq_none] at hf
    constructor
    · rintro ⟨e, he⟩
      simp [Mapper.validate, List.find?_eq_none.mpr hf] at he
    · rintro ⟨row, hmem, hne⟩
      exact absurd (by simpa using hf row hmem) (by simpa using hne)
  · have hlen := List.find?_some hf
    have hmem := List.mem_of_find?_eq_some hf
    constructor
    · intro _
      exact ⟨row, hmem, by simpa using hlen⟩
    · intro _
      exact ⟨.dataFormatValidation
        s!"Row length {row.length} does not match expected columns {columns.length}",
        by simp [Mapper.validate, hf]⟩
  · rw [List.find?_eq_none] at hf
    constructor
    · intro _ row hmem
      simpa using hf row hmem
    · intro _
      simp [Mapper.validate, List.find?_eq_none.mpr hf]
  · have hlen := List.find?_some hf
    have hmem := List.mem_of_find?_eq_some hf
    constructor
    · intro h
      simp [Mapper.validate, hf] at h
    · intro h
      exact absurd (h row hmem) (by simpa using hlen)

end MapperTheorems

section TaskTheorems

open Task

/-- Helper for C4: from any starting call index, a window of probe
calls that all fail the success test exhausts the attempt countdown and
raises the initialization failure. -/
theorem initializeFunc_all_fail (probe : Nat → DataFlag × List Task.TRow)
    (mapF : Option (List Task.TRow → List Task.TRow)) (untilT : Int)
    (threadCount localRatio : Nat) :
    ∀ n c, (∀ i, c ≤ i → i < c + n → Task.probeFails probe mapF i) →
      Task.initializeFunc probe mapF untilT threadCount localRatio c n =
        .error (.runtimeError "Failed to generate task, maximum attempts exhausted") := by
  intro n
  induction n with
  | zero => intro c _; rfl
  | succ k ih =>
    intro c H
    rw [Task.initializeFunc, if_neg (H c (le_refl c) (by omega))]
    exact ih (c + 1) (fun i h1 h2 => H i (by omega) (by omega))

/-- C4: if every one of the planner's up-to-`max_attempts` probe calls
returns `ERROR` or an empty (possibly mapped) page, `initialize_func`
raises the task-initialization failure (`RuntimeError` with the
source's message) and no plan value is produced — the timestamp-list
and pool-size assignments all sit on the success path that is never
reached. -/
theorem claim4_planner_exhaustion (probe : Nat → DataFlag × List Task.TRow)
    (mapF : Option (List Task.TRow → List Task.TRow)) (untilT : Int)
    (threadCount localRatio attempts : Nat)
    (H : ∀ i < attempts, Task.probeFails probe mapF i) :
    Task.initializeFunc probe mapF untilT threadCount localRatio 0 attempts =
      .error (.runtimeError "Failed to generate task, maximum attempts exhausted") :=
  initializeFunc_all_fail probe mapF untilT threadCount localRatio attempts 0
    (fun i _ h2 => H i (by omega))

/-- C4 witness: a probe that always returns `ERROR` with no rows, two
allowed attempts. -/
theorem claim4_witness :
    (∀ i < 2, Task.probeFails (fun _ => (DataFlag.ERROR, [])) none i) ∧
    Task.initializeFunc (fun _ => (DataFlag.ERROR, ([] : List Task.TRow))) none
        100 8 4 0 2 =
      .error (.runtimeError "Failed to generate task, maximum attempts exhausted") := by
  have h : ∀ i < 2, Task.probeFails
      (fun _ => (DataFlag.ERROR, ([] : List Task.TRow))) none i := by decide
  exact ⟨h, claim4_planner_exhaustion _ none 100 8 4 2 h⟩

/-- C5: a probe call that succeeds (`NORMAL`, non-empty mapped page)
but whose first and last rows carry the same time value gives
`delta == 0`, and initialization fails fatally with Python's
zero-step `range` error instead of building any timestamp sequence. -/
theorem claim5_zero_delta_rejected (probe : Nat → DataFlag × List Task.TRow)
    (mapF : Option (List Task.TRow → List Task.TRow)) (untilT : Int)
    (threadCount localRatio c n : Nat)
    (hflag : (probe c).1 = DataFlag.NORMAL)
    (hne : Task.mappedData probe mapF c ≠ [])
    (hsame : ((Task.mappedData probe mapF c).headD []).headD 0 =
      ((Task.mappedData probe mapF c).getLastD []).headD 0) :
    Task.initializeFunc probe mapF untilT threadCount localRatio c (n + 1) =
      .error (.valueError "range() arg 3 must not be zero") := by
  rw [Task.initializeFunc, if_pos ⟨hflag, hne⟩, if_pos]
  rw [hsame, sub_self]
  rfl

/-- C5 witness: a single-row probe page `[[10, 1]]` (identical first
and last timestamps). -/
theorem claim5_witness :
    Task.mappedData (fun _ => (DataFlag.NORMAL, [[10, 1]])) none 0 ≠ [] ∧
    Task.initializeFunc (fun _ => (DataFlag.NORMAL, [[10, 1]])) none 100 8 4 0 1 =
      .error (.valueError "range() arg 3 must not be zero") :=
  ⟨by decide, claim5_zero_delta_rejected (fun _ => (DataFlag.NORMAL, [[10, 1]])) none
    100 8 4 0 0 rfl (by decide) rfl⟩

end TaskTheorems


section SaverTheorems

open CSVSaver

/-- C10: unknown action names have no effect on a `save` run — the
outcome (including every fatal error, the table and the files written)
is the one obtained after dropping every name that is not in the action
table; in particular an unknown name never raises, the remaining
actions still run in their order and the chunk files are still
written.  (The source additionally logs a warning for each skipped
name; logging is outside the state model.) -/
theorem claim10_unknown_actions_skipped (cfg : SaverCfg) (acts : List String)
    (st : SaverState) (rows : List CSVSaver.Row) :
    CSVSaver.save cfg acts st rows =
      CSVSaver.save cfg (acts.filter (fun a => (getAction cfg a).isSome)) st rows := by
  have key : ∀ (as : List String) (s : SaverState),
      runActions cfg as s =
        runActions cfg (as.filter (fun a => (getAction cfg a).isSome)) s := by
    intro as
    induction as with
    | nil => intro s; rfl
    | cons a rest ih =>
      intro s
      rw [List.filter_cons]
      cases hg : getAction cfg a with
      | none =>
        simp only [hg, Option.isSome_none, Bool.false_eq_true, if_false]
        simp only [runActions, hg]
        exact ih s
      | some act =>
        simp only [hg, Option.isSome_some, if_true]
        simp only [runActions, hg]
        cases act s with
        | error e => rfl
        | ok s' => exact ih s'
  unfold CSVSaver.save
  rw [key]

/-- Filtering by a time-key predicate commutes with keep-first
deduplication. -/
theorem dropDup_filter_comm (tIdx : Nat) (k : Cell) :
    ∀ (n : Nat) (l : List CSVSaver.Row), l.length ≤ n →
      (dropDupKeepFirst tIdx l).filter (fun r => decide (timeCell tIdx r ≠ k)) =
        dropDupKeepFirst tIdx (l.filter (fun r => decide (timeCell tIdx r ≠ k))) := by
  intro n
  induction n with
  | zero =>
    intro l hl
    cases l with
    | nil => simp [dropDupKeepFirst]
    | cons r rs => simp at hl
  | succ n ih =>
    intro l hl
    cases l with
    | nil => simp [dropDupKeepFirst]
    | cons r rs =>
      have hlen : rs.length ≤ n := by simpa using hl
      have hfilter_twice : ∀ (l' : List CSVSaver.Row),
          (l'.filter (fun r => decide (timeCell tIdx r ≠ k))).filter
              (fun r => decide (timeCell tIdx r ≠ k)) =
            l'.filter (fun r => decide (timeCell tIdx r ≠ k)) := by
        intro l'
        rw [List.filter_filter]
        exact List.filter_congr (fun x _ => Bool.and_self _)
      rw [dropDupKeepFirst, List.filter_cons, List.filter_cons]
      by_cases hk : timeCell tIdx r = k
      · rw [if_neg (by simp [hk]), if_neg (by simp [hk])]
        rw [ih _ (le_trans (List.length_filter_le _ _) hlen)]
        rw [List.filter_comm, hk]
        rw [hfilter_twice]
      · rw [if_pos (by simp [hk]), if_pos (by simp [hk])]
        rw [dropDupKeepFirst]
        congr 1
        rw [ih _ (le_trans (List.length_filter_le _ _) hlen)]
        rw [List.filter_comm]

/-- Keep-first deduplication is idempotent. -/
theorem dropDup_idem (tIdx : Nat) :
    ∀ (n : Nat) (l : List CSVSaver.Row), l.length ≤ n →
      dropDupKeepFirst tIdx (dropDupKeepFirst tIdx l) = dropDupKeepFirst tIdx l := by
  intro n
  induction n with
  | zero =>
    intro l hl
    cases l with
    | nil => simp [dropDupKeepFirst]
    | cons r rs => simp at hl
  | succ n ih =>
    intro l hl
    cases l with
    | nil => simp [dropDupKeepFirst]
    | cons r rs =>
      have hlen : rs.length ≤ n := by simpa using hl
      have hfilter_twice : ∀ (l' : List CSVSaver.Row),
          (l'.filter (fun r2 => decide (timeCell tIdx r2 ≠ timeCell tIdx r))).filter
              (fun r2 => decide (timeCell tIdx r2 ≠ timeCell tIdx r)) =
            l'.filter (fun r2 => decide (timeCell tIdx r2 ≠ timeCell tIdx r)) := by
        intro l'
        rw [List.filter_filter]
        exact List.filter_congr (fun x _ => Bool.and_self _)
      rw [dropDupKeepFirst]
      rw [dropDupKeepFirst]
      congr 1
      rw [dropDup_filter_comm tIdx (timeCell tIdx r) n _
        (le_trans (List.length_filter_le _ _) hlen)]
      rw [hfilter_twice]
      exact ih _ (le_trans (List.length_filter_le _ _) hlen)

/-- C9, under the specification's stable-sort semantics for `_sort`:
on every table state, running the `sort` action twice produces a table
identical (row order included) to running it once, and running
`drop_duplicates` twice produces exactly the table of a single run.
The `drop_duplicates` half is unconditionally faithful to the source.
The `sort` half is what the specification's "stable sort" prescribes
and any stable kind delivers; the source's `sort_values` defaults to
the unstable `kind='quicksort'`, for which row-order idempotence is
not guaranteed on tables with many tied time values — see the
disclosure on `sortAction`. -/
theorem claim9_sort_dedup_idempotent (cfg : SaverCfg) (st : SaverState) :
    CSVSaver.sortAction cfg (CSVSaver.sortAction cfg st) = CSVSaver.sortAction cfg st ∧
    CSVSaver.dropDuplicatesAction cfg (CSVSaver.dropDuplicatesAction cfg st) =
      CSVSaver.dropDuplicatesAction cfg st := by
  constructor
  · show ({ st with
        df := (st.df.insertionSort (RowLE cfg.tIdx)).insertionSort (RowLE cfg.tIdx) } :
        SaverState) =
      { st with df := st.df.insertionSort (RowLE cfg.tIdx) }
    rw [List.Sorted.insertionSort_eq (List.sorted_insertionSort _ st.df)]
  · show ({ st with
        df := dropDupKeepFirst cfg.tIdx (dropDupKeepFirst cfg.tIdx st.df) } :
        SaverState) =
      { st with df := dropDupKeepFirst cfg.tIdx st.df }
    rw [dropDup_idem cfg.tIdx st.df.length st.df (le_refl _)]

/-- The minimum of a non-empty time column does not exceed its
maximum. -/
theorem listMin_le_listMax (times : List Int) (hne : times ≠ []) :
    CSVSaver.listMin times ≤ CSVSaver.listMax times := by
  cases times with
  | nil => exact absurd rfl hne
  | cons t ts =>
    show ts.foldl min t ≤ ts.foldl max t
    have key : ∀ (l : List Int) (a b : Int), a ≤ b →
        l.foldl min a ≤ l.foldl max b := by
      intro l
      induction l with
      | nil => intro a b h; exact h
      | cons x xs ih =>
        intro a b h
        exact ih _ _ (le_trans (min_le_left a x) (le_trans h (le_max_left b x)))
    exact key ts t t (le_refl t)

/-- When the step divides the span, the `np.arange` grid of the source
coincides with the specification's expected set
`min, min+step, …, max`. -/
theorem arangeGrid_eq_spec (lo hi delta : Int) (hpos : 0 < delta) (hle : lo ≤ hi)
    (hdvd : delta ∣ hi - lo) :
    CSVSaver.arangeGrid lo hi delta = CSVSaver.specExpectedGrid lo hi delta := by
  unfold CSVSaver.arangeGrid CSVSaver.specExpectedGrid
  have ediv_div : ∀ a b : Int, a.ediv b = a / b := fun _ _ => rfl
  obtain ⟨q, hq⟩ := hdvd
  have hq0 : 0 ≤ q := by
    by_contra hneg
    push_neg at hneg
    have : delta * q < 0 := mul_neg_of_pos_of_neg hpos hneg
    omega
  have e1 : hi - lo + 2 * delta - 1 = (delta - 1) + (q + 1) * delta := by
    rw [hq]; ring
  have hn : ((hi - lo + 2 * delta - 1).ediv delta).toNat =
      (((hi - lo).ediv delta)).toNat + 1 := by
    rw [ediv_div, ediv_div, e1,
      Int.add_mul_ediv_right _ _ (ne_of_gt hpos),
      Int.ediv_eq_zero_of_lt (by omega) (by omega), hq,
      Int.mul_ediv_cancel_left _ (ne_of_gt hpos)]
    omega
  rw [hn]

/-- C3 counterexample: for rows at times 0 and 250 with step 100, the
source's grid `np.arange(0, 350, 100)` contains 300 > max, so the
computed missing set is 100, 200, 300 while the claim's
expected-set difference is only 100, 200. -/
theorem claim3_counterexample :
    (CSVSaver.missingList [0, 250] 100).toFinset ≠
      CSVSaver.specMissingSet [0, 250] 100 := by
  decide

/-- C3 amended: when the cadence step divides `max - min` (in
particular whenever the present times all lie on the grid), the missing
set computed for `save_missing_times` and `fix_integrity` is exactly
the spec's expected set `min, min+step, …, max` minus the present set; in
general the code's grid is `np.arange(min, max + step, step)`, whose
last point can exceed `max` when the step does not divide the span. -/
theorem claim3_missing_times_grid (times : List Int) (delta : Int)
    (hne : times ≠ []) (hpos : 0 < delta)
    (hdvd : delta ∣ CSVSaver.listMax times - CSVSaver.listMin times) :
    (CSVSaver.missingList times delta).toFinset =
      CSVSaver.specMissingSet times delta := by
  unfold CSVSaver.missingList CSVSaver.specMissingSet
  rw [arangeGrid_eq_spec _ _ _ hpos (listMin_le_listMax times hne) hdvd]
  ext x
  simp [List.mem_filter, Finset.mem_sdiff, List.mem_toFinset]

/-- C3 witness: rows at times 0, 100, 300 with step 100 — the span is
a multiple of the step, the grid equality applies, and the computed
missing set is exactly the singleton 200. -/
theorem claim3_witness :
    CSVSaver.missingList [0, 100, 300] 100 = [200] ∧
    (CSVSaver.missingList [0, 100, 300] 100).toFinset =
      CSVSaver.specMissingSet [0, 100, 300] 100 :=
  ⟨by decide,
   claim3_missing_times_grid [0, 100, 300] 100 (by decide) (by decide)
     ⟨3, by decide⟩⟩

/-- The element at the junction of an append: indexing at the length
of the left part yields the inserted head. -/
theorem getD_append_cons {A : Type} (l1 : List A) (x : A) (l2 : List A) (d : A) :
    (l1 ++ x :: l2).getD l1.length d = x := by
  induction l1 with
  | nil => rfl
  | cons y ys ih => simpa using ih

/-- C8: on a table whose time column is sorted ascending, a missing
timestamp lying strictly between the times `a` of row `ra` and `b` of
the immediately following row `rb`, at equal distance from both,
is synthesized by cloning the predecessor `ra` and overwriting only its
time cell (the source's `min` over candidates keeps the first minimum,
and the predecessor candidate is listed first). -/
theorem claim8_gap_fill_tie (tIdx : Nat) (ts a b : Int)
    (pre suf : List CSVSaver.Row) (ra rb : CSVSaver.Row)
    (hsorted : List.Sorted (· ≤ ·)
      ((pre ++ ra :: rb :: suf).map (CSVSaver.timeInt tIdx)))
    (ha : CSVSaver.timeInt tIdx ra = a) (hb : CSVSaver.timeInt tIdx rb = b)
    (hats : a < ts) (htsb : ts < b) (htie : ts - a = b - ts) :
    CSVSaver.synthesizeRow (pre ++ ra :: rb :: suf)
        ((pre ++ ra :: rb :: suf).map (CSVSaver.timeInt tIdx)) tIdx ts =
      some (ra.set tIdx (.int ts)) := by
  have harr : (pre ++ ra :: rb :: suf).map (CSVSaver.timeInt tIdx) =
      pre.map (CSVSaver.timeInt tIdx) ++ a :: b :: suf.map (CSVSaver.timeInt tIdx) := by
    simp [ha, hb]
  rw [harr] at hsorted
  have hpre_le : ∀ x ∈ pre.map (CSVSaver.timeInt tIdx), x ≤ a := by
    intro x hx
    exact (List.pairwise_append.mp hsorted).2.2 x hx a (by simp)
  have hsuf_ge : ∀ y ∈ suf.map (CSVSaver.timeInt tIdx), b ≤ y := by
    have h1 : List.Sorted (· ≤ ·) (a :: b :: suf.map (CSVSaver.timeInt tIdx)) :=
      (List.pairwise_append.mp hsorted).2.1
    have h2 : List.Sorted (· ≤ ·) (b :: suf.map (CSVSaver.timeInt tIdx)) :=
      (List.pairwise_cons.mp h1).2
    intro y hy
    exact (List.pairwise_cons.mp h2).1 y hy
  have hcount : CSVSaver.searchsortedL
      ((pre ++ ra :: rb :: suf).map (CSVSaver.timeInt tIdx)) ts =
      pre.length + 1 := by
    rw [harr]
    show List.countP (fun x => decide (x < ts))
        (pre.map (CSVSaver.timeInt tIdx) ++ a :: b :: suf.map (CSVSaver.timeInt tIdx)) =
      pre.length + 1
    rw [List.countP_append]
    have hc1 : List.countP (fun x => decide (x < ts)) (pre.map (CSVSaver.timeInt tIdx)) =
        (pre.map (CSVSaver.timeInt tIdx)).length :=
      List.countP_eq_length.mpr
        (fun x hx => by simpa using lt_of_le_of_lt (hpre_le x hx) hats)
    have hc2 : List.countP (fun x => decide (x < ts))
        (a :: b :: suf.map (CSVSaver.timeInt tIdx)) = 1 := by
      rw [List.countP_cons_of_pos _ _ (by simpa using hats),
          List.countP_cons_of_neg _ _ (by simpa using not_lt.mpr (le_of_lt htsb)),
          List.countP_eq_zero.mpr
            (fun y hy => by
              simpa using not_lt.mpr (le_trans (le_of_lt htsb) (hsuf_ge y hy)))]
    rw [hc1, hc2, List.length_map]
  have hga : ((pre ++ ra :: rb :: suf).map (CSVSaver.timeInt tIdx)).getD pre.length 0 = a := by
    rw [harr]
    have := getD_append_cons (pre.map (CSVSaver.timeInt tIdx)) a
      (b :: suf.map (CSVSaver.timeInt tIdx)) 0
    simpa using this
  have hgb : ((pre ++ ra :: rb :: suf).map (CSVSaver.timeInt tIdx)).getD
      (pre.length + 1) 0 = b := by
    rw [harr,
      show pre.map (CSVSaver.timeInt tIdx) ++ a :: b :: suf.map (CSVSaver.timeInt tIdx) =
        (pre.map (CSVSaver.timeInt tIdx) ++ [a]) ++ b :: suf.map (CSVSaver.timeInt tIdx) by
          simp]
    have := getD_append_cons (pre.map (CSVSaver.timeInt tIdx) ++ [a]) b
      (suf.map (CSVSaver.timeInt tIdx)) 0
    simpa using this
  have hlen : pre.length + 1 < ((pre ++ ra :: rb :: suf).map (CSVSaver.timeInt tIdx)).length := by
    simp
  have hdist : (a - ts).natAbs = (b - ts).natAbs := by omega
  have hrow : (pre ++ ra :: rb :: suf).getD pre.length [] = ra :=
    getD_append_cons pre ra (rb :: suf) []
  unfold CSVSaver.synthesizeRow CSVSaver.pyMinByDist
  simp only [hcount, Nat.succ_pos, hlen, if_true, Nat.add_sub_cancel, hga, hgb,
    hdist, List.singleton_append, List.foldl_cons, List.foldl_nil,
    lt_self_iff_false, if_false, hrow]

/-- C8 witness: rows at times 100 and 200, missing timestamp 150 —
the synthesized row is a clone of the row at 100 with only the time
overwritten. -/
theorem claim8_witness :
    CSVSaver.synthesizeRow
        [[CSVSaver.Cell.int 100, CSVSaver.Cell.int 7],
         [CSVSaver.Cell.int 200, CSVSaver.Cell.int 9]]
        [100, 200] 0 150 =
      some [CSVSaver.Cell.int 150, CSVSaver.Cell.int 7] := by
  have h := claim8_gap_fill_tie 0 150 100 200 [] []
    [CSVSaver.Cell.int 100, CSVSaver.Cell.int 7]
    [CSVSaver.Cell.int 200, CSVSaver.Cell.int 9]
    (by decide) (by decide) (by decide) (by decide) (by decide) (by decide)
  simpa [CSVSaver.timeInt, CSVSaver.timeCell, CSVSaver.cellIntD] using h

/-- When the missing-point count of a non-empty, integer-timed table
exceeds the configured ceiling, `_initialize_missing_times` raises
`ExceedMaxMissingPointsError` reporting that count, and neither caches
missing times nor touches the table. -/
theorem initializeMissingTimes_exceeds (cfg : SaverCfg) (s : SaverState)
    (tf : String) (delta : Int) (times : List Int)
    (h0 : s.missingTimes = none)
    (htf : cfg.timeframe = some tf)
    (hdelta : Utils.timeframe_to_timestamp tf = some delta)
    (hpos : 0 < delta)
    (hne : s.df ≠ [])
    (htimes : s.df.mapM (fun r => CSVSaver.cellInt (CSVSaver.timeCell cfg.tIdx r)) =
      Except.ok times)
    (hcount : (CSVSaver.missingList times delta).length > cfg.allowMaxMissing) :
    CSVSaver.initializeMissingTimes cfg s =
      .error (.exceedMaxMissingPoints
        s!"Too many missing time points: {(CSVSaver.missingList times delta).length}") := by
  have hmne : ¬ CSVSaver.missingList times delta = [] := by
    intro hnil
    rw [hnil] at hcount
    simp at hcount
  simp only [CSVSaver.initializeMissingTimes, h0, htf, htimes, hdelta,
    Option.isSome_none, Bool.false_eq_true, if_false, hne, hmne, hcount,
    not_le.mpr hpos, ite_true, ite_false, if_true]

/-- C6: whenever the missing-timestamp count computed during a `save`
run exceeds the configured ceiling, `save` fails fatally with an
`ExceedMaxMissingPointsError` reporting the missing-point count; no
state survives the failure — the gap computation performs no table
mutation and `_save_file` is never reached, so no output file is
written. -/
theorem claim6_exceed_max_missing (cfg : SaverCfg) (st : SaverState)
    (rows : List CSVSaver.Row) (tf : String) (delta : Int) (times : List Int)
    (h0 : st.missingTimes = none)
    (htf : cfg.timeframe = some tf)
    (hdelta : Utils.timeframe_to_timestamp tf = some delta)
    (hpos : 0 < delta)
    (hne : st.df ++ rows ≠ [])
    (htimes : (st.df ++ rows).mapM
      (fun r => CSVSaver.cellInt (CSVSaver.timeCell cfg.tIdx r)) = Except.ok times)
    (hcount : (CSVSaver.missingList times delta).length > cfg.allowMaxMissing) :
    CSVSaver.save cfg ["save_missing_times"] st rows =
      .error (.exceedMaxMissingPoints
        s!"Too many missing time points: {(CSVSaver.missingList times delta).length}") := by
  have hact : CSVSaver.getAction cfg "save_missing_times" =
      some (CSVSaver.saveMissingTimesAction cfg) := rfl
  have hinit := initializeMissingTimes_exceeds cfg (CSVSaver.appendData st rows)
    tf delta times h0 htf hdelta hpos hne htimes hcount
  simp only [CSVSaver.save, CSVSaver.runActions, hact, CSVSaver.saveMissingTimesAction,
    hinit]

/-- C6 witness: a fresh saver with timeframe `1s` (step 1000 ms),
ceiling 3, fed rows at times 0 and 5000 — four grid points are missing
and `save` fails with the count in the message. -/
theorem claim6_witness :
    CSVSaver.save ⟨some "1s", 3, 2, 0⟩ ["save_missing_times"]
        ⟨[], none, none, []⟩ [[CSVSaver.Cell.int 0], [CSVSaver.Cell.int 5000]] =
      .error (.exceedMaxMissingPoints "Too many missing time points: 4") := by
  have h := claim6_exceed_max_missing ⟨some "1s", 3, 2, 0⟩ ⟨[], none, none, []⟩
    [[CSVSaver.Cell.int 0], [CSVSaver.Cell.int 5000]] "1s" 1000 [0, 5000]
    rfl rfl (by decide) (by decide) (by decide) (by decide) (by decide)
  exact h.trans (by decide)

end SaverTheorems

section FactoryTheorems

/-- The seeded initial state is the canonical round-0 state: nothing
has been fetched and every unit is in flight with attempt counter 0. -/
theorem initState_eq_stateAt (f : Int → Nat → DataFlag × List Factory.FRow)
    (plan : List Int) : Factory.initState plan = Factory.stateAt f plan 0 := by
  unfold Factory.initState Factory.stateAt Factory.survivors
  rw [List.filter_eq_self.mpr
    (fun ts _ => (rfl : Factory.allErrBefore f ts 0 = true))]
  rfl

/-- Closed form of the serialized online pass while no unit has
exceeded the bound: every queued unit is fetched once at its attempt
counter, its result is pushed in order, and the fetch log grows by the
queue. -/
theorem onlineLoop_normal (f : Int → Nat → DataFlag × List Factory.FRow) (m : Nat) :
    ∀ (units : List (Int × Nat)) (lq : List Factory.LocalItem)
      (cache : List Factory.FRow) (log : List (Int × Nat)),
      (∀ u ∈ units, u.2 ≤ m) →
      Factory.onlineLoop f m units ⟨[], lq, false, none, cache, log⟩ =
        ⟨[], lq ++ units.map (fun u => (u.1, (f u.1 u.2).2, (f u.1 u.2).1, u.2 + 1)),
          false, none, cache, log ++ units⟩ := by
  intro units
  induction units with
  | nil => intro lq cache log _; simp [Factory.onlineLoop]
  | cons u rest ih =>
    intro lq cache log hle
    obtain ⟨ts, a⟩ := u
    have ha : ¬ a > m := not_lt.mpr (hle (ts, a) (List.mem_cons_self _ _))
    rw [Factory.onlineLoop]
    simp only [Factory.onlineItem, ha, Bool.false_eq_true, if_false, ite_false]
    rw [ih _ _ _ (fun u hu => hle u (List.mem_cons_of_mem _ hu))]
    simp [List.append_assoc]

/-- Closed form of the serialized local pass while the stop event is
unset: `NORMAL` results append their data to the accumulator in queue
order, the others re-enqueue their unit with its carried attempt
counter. -/
theorem localLoop_normal :
    ∀ (items : List Factory.LocalItem) (oq : List (Int × Nat))
      (cache : List Factory.FRow) (log : List (Int × Nat)),
      Factory.localLoop items ⟨oq, [], false, none, cache, log⟩ =
        ⟨oq ++ (items.filter
            (fun it => ¬ it.2.2.1 = DataFlag.NORMAL)).map (fun it => (it.1, it.2.2.2)),
          [], false, none,
          cache ++ ((items.filter
            (fun it => it.2.2.1 = DataFlag.NORMAL)).map (fun it => it.2.1)).flatten,
          log⟩ := by
  intro items
  induction items with
  | nil => intro oq cache log; simp [Factory.localLoop]
  | cons it rest ih =>
    intro oq cache log
    obtain ⟨ts, data, flag, a⟩ := it
    rw [Factory.localLoop]
    simp only [Bool.false_eq_true, if_false, ite_false]
    by_cases hfl : flag = DataFlag.NORMAL
    · have hitem : Factory.localItem ⟨oq, [], false, none, cache, log⟩ ts data flag a =
          ⟨oq, [], false, none, cache ++ data, log⟩ := by
        unfold Factory.localItem
        rw [if_pos hfl]
        by_cases hd : data = []
        · subst hd; simp
        · rw [if_pos hd]
      rw [hitem, ih]
      simp [hfl, List.append_assoc]
    · have hitem : Factory.localItem ⟨oq, [], false, none, cache, log⟩ ts data flag a =
          ⟨oq ++ [(ts, a)], [], false, none, cache, log⟩ := by
        unfold Factory.localItem
        rw [if_neg hfl]
      rw [hitem, ih]
      simp [hfl, List.append_assoc]

/-- A flag that is not `NORMAL` is `ERROR`. -/
theorem flag_not_normal_iff (fl : DataFlag) :
    (decide (¬ fl = DataFlag.NORMAL)) = decide (fl = DataFlag.ERROR) := by
  cases fl <;> simp

/-- The units still in flight after one more round are the current
survivors whose fetch at this round's attempt counter errored. -/
theorem survivors_succ (f : Int → Nat → DataFlag × List Factory.FRow)
    (plan : List Int) (r : Nat) :
    Factory.survivors f plan (r + 1) =
      (Factory.survivors f plan r).filter
        (fun ts => (f ts r).1 = DataFlag.ERROR) := by
  unfold Factory.survivors
  rw [List.filter_filter]
  apply List.filter_congr
  intro ts _
  show Factory.allErrBefore f ts (r + 1) =
    (decide ((f ts r).1 = DataFlag.ERROR) && Factory.allErrBefore f ts r)
  unfold Factory.allErrBefore
  rw [List.range_succ, List.all_append, Bool.and_comm]
  simp

/-- One serialized round carries the canonical round-`r` state to the
canonical round-`r+1` state as long as no attempt counter has exceeded
the bound. -/
theorem roundStep_stateAt (f : Int → Nat → DataFlag × List Factory.FRow)
    (m : Nat) (plan : List Int) (r : Nat) (hr : r ≤ m) :
    Factory.roundStep f m (Factory.stateAt f plan r) =
      Factory.stateAt f plan (r + 1) := by
  unfold Factory.roundStep
  have hunits : ∀ u ∈ (Factory.survivors f plan r).map (fun ts => (ts, r)), u.2 ≤ m := by
    intro u hu
    obtain ⟨ts, _, rfl⟩ := List.mem_map.mp hu
    exact hr
  show Factory.localLoop
      (Factory.onlineLoop f m (Factory.stateAt f plan r).onlineQ
        { Factory.stateAt f plan r with onlineQ := [] }).localQ
      { Factory.onlineLoop f m (Factory.stateAt f plan r).onlineQ
        { Factory.stateAt f plan r with onlineQ := [] } with localQ := [] } =
    Factory.stateAt f plan (r + 1)
  rw [show (Factory.stateAt f plan r).onlineQ =
      (Factory.survivors f plan r).map (fun ts => (ts, r)) from rfl]
  rw [show ({ Factory.stateAt f plan r with onlineQ := [] } : Factory.FacState) =
      ⟨[], [], false, none, Factory.cacheUpTo f plan r, Factory.logUpTo f plan r⟩
      from rfl]
  rw [onlineLoop_normal f m _ _ _ _ hunits]
  rw [localLoop_normal]
  simp only [List.nil_append]
  rw [List.map_map, List.filter_map, List.filter_map, List.map_map, List.map_map]
  unfold Factory.stateAt
  have hre : (List.filter
        ((fun it => decide (¬ it.2.2.1 = DataFlag.NORMAL)) ∘
          (fun u => (u.1, (f u.1 u.2).2, (f u.1 u.2).1, u.2 + 1)) ∘ fun ts => (ts, r))
        (Factory.survivors f plan r)).map
        ((fun it => (it.1, it.2.2.2)) ∘
          (fun u => (u.1, (f u.1 u.2).2, (f u.1 u.2).1, u.2 + 1)) ∘ fun ts => (ts, r)) =
      (Factory.survivors f plan (r + 1)).map (fun ts => (ts, r + 1)) := by
    rw [survivors_succ]
    apply congrArg
    apply List.filter_congr
    intro ts _
    exact flag_not_normal_iff ((f ts r).1)
  have hca : (List.filter
        ((fun it => decide (it.2.2.1 = DataFlag.NORMAL)) ∘
          (fun u => (u.1, (f u.1 u.2).2, (f u.1 u.2).1, u.2 + 1)) ∘ fun ts => (ts, r))
        (Factory.survivors f plan r)).map
        ((fun it => it.2.1) ∘
          (fun u => (u.1, (f u.1 u.2).2, (f u.1 u.2).1, u.2 + 1)) ∘ fun ts => (ts, r)) =
      ((Factory.survivors f plan r).filter
        (fun ts => (f ts r).1 = DataFlag.NORMAL)).map (fun ts => (f ts r).2) := rfl
  rw [hre, hca]
  rfl

/-- While units survive and the bound is not exceeded, one unit of fuel
advances the engine by exactly one round. -/
theorem runRounds_step (f : Int → Nat → DataFlag × List Factory.FRow)
    (m : Nat) (plan : List Int) (r : Nat) (hr : r ≤ m)
    (hne : Factory.survivors f plan r ≠ []) (fuel : Nat) :
    Factory.runRounds f m (fuel + 1) (Factory.stateAt f plan r) =
      Factory.runRounds f m fuel (Factory.stateAt f plan (r + 1)) := by
  rw [Factory.runRounds]
  rw [if_neg (fun hc => hne (by simpa [Factory.stateAt] using hc.1))]
  rw [if_neg (by simp [Factory.stateAt])]
  rw [roundStep_stateAt f m plan r hr]

/-- `allErrBefore` holds exactly when no fetch among the first `r` was
`NORMAL`. -/
theorem allErrBefore_iff_find (f : Int → Nat → DataFlag × List Factory.FRow)
    (ts : Int) (r : Nat) :
    Factory.allErrBefore f ts r = true ↔
      (List.range r).find? (fun k => (f ts k).1 = DataFlag.NORMAL) = none := by
  unfold Factory.allErrBefore
  rw [List.all_eq_true, List.find?_eq_none]
  constructor
  · intro h j hj
    have := h j hj
    cases hfl : (f ts j).1 <;> simp [hfl] at this ⊢
  · intro h j hj
    have := h j hj
    cases hfl : (f ts j).1 <;> simp [hfl] at this ⊢

/-- One more round appends to a unit's contribution exactly the data of
this round's fetch when the unit was still in flight and that fetch is
its first `NORMAL` one. -/
theorem rowsAcc_succ (f : Int → Nat → DataFlag × List Factory.FRow)
    (r : Nat) (ts : Int) :
    Factory.rowsAcc f (r + 1) ts =
      Factory.rowsAcc f r ts ++
        (if (Factory.allErrBefore f ts r &&
            decide ((f ts r).1 = DataFlag.NORMAL)) = true
          then (f ts r).2 else []) := by
  unfold Factory.rowsAcc
  rw [List.range_succ, List.find?_append]
  cases hf : (List.range r).find? (fun k => decide ((f ts k).1 = DataFlag.NORMAL)) with
  | some k =>
    have hall : Factory.allErrBefore f ts r = false := by
      rw [Bool.eq_false_iff]
      intro hc
      rw [(allErrBefore_iff_find f ts r).mp hc] at hf
      exact Option.noConfusion hf
    rw [hall]
    simp [Option.or]
  | none =>
    have hall : Factory.allErrBefore f ts r = true :=
      (allErrBefore_iff_find f ts r).mpr hf
    rw [hall]
    cases hnorm : decide ((f ts r).1 = DataFlag.NORMAL) with
    | false => simp [Option.or, List.find?, hnorm]
    | true => simp [Option.or, List.find?, hnorm]

/-- A unit's contribution is stable across later rounds once its first
`NORMAL` fetch has happened. -/
theorem rowsAcc_stable (f : Int → Nat → DataFlag × List Factory.FRow)
    (ts : Int) (r r' : Nat) (hrr : r ≤ r')
    (hdone : Factory.allErrBefore f ts r = false) :
    Factory.rowsAcc f r ts = Factory.rowsAcc f r' ts := by
  unfold Factory.rowsAcc
  obtain ⟨k, hk⟩ : ∃ k, (List.range r).find?
      (fun k => decide ((f ts k).1 = DataFlag.NORMAL)) = some k := by
    cases hf : (List.range r).find? (fun k => decide ((f ts k).1 = DataFlag.NORMAL)) with
    | none => rw [(allErrBefore_iff_find f ts r).mpr hf] at hdone; exact absurd hdone (by simp)
    | some k => exact ⟨k, rfl⟩
  rw [show r' = r + (r' - r) by omega, List.range_add, List.find?_append, hk]
  simp [Option.or]

/-- Multiset contents of a filtered flat-map, summed pointwise over the
base list. -/
theorem flatten_filter_multiset (l : List Int) (p : Int → Bool)
    (g : Int → List Factory.FRow) :
    (Multiset.ofList (((l.filter p).map g).flatten)) =
      (l.map (fun ts =>
        Multiset.ofList (if p ts = true then g ts else []))).sum := by
  induction l with
  | nil => simp
  | cons a rest ih =>
    rw [List.filter_cons]
    by_cases hp : p a = true
    · rw [if_pos hp, List.map_cons, List.flatten_cons, List.map_cons, List.sum_cons,
        if_pos hp, ← ih]
      simp
    · rw [if_neg hp, List.map_cons, List.sum_cons, if_neg hp, ← ih]
      simp

/-- Pointwise-added multiset maps sum to the sum of the two sums. -/
theorem sum_map_add_multiset (l : List Int) (g h : Int → Multiset Factory.FRow) :
    (l.map (fun ts => g ts + h ts)).sum = (l.map g).sum + (l.map h).sum := by
  induction l with
  | nil => simp
  | cons a rest ih =>
    simp only [List.map_cons, List.sum_cons, ih]
    exact add_add_add_comm _ _ _ _

/-- The accumulator after `r` rounds holds, as a multiset, exactly the
sum over the plan of each unit's contribution so far. -/
theorem cacheUpTo_multiset (f : Int → Nat → DataFlag × List Factory.FRow)
    (plan : List Int) :
    ∀ r, Multiset.ofList (Factory.cacheUpTo f plan r) =
      (plan.map (fun ts => Multiset.ofList (Factory.rowsAcc f r ts))).sum := by
  intro r
  induction r with
  | zero => simp [Factory.cacheUpTo, Factory.rowsAcc]
  | succ r ih =>
    show Multiset.ofList (Factory.cacheUpTo f plan r ++ _) = _
    rw [← Multiset.coe_add]
    rw [ih]
    have hflat : Multiset.ofList
        ((((Factory.survivors f plan r).filter
          (fun ts => (f ts r).1 = DataFlag.NORMAL)).map (fun ts => (f ts r).2)).flatten) =
        (plan.map (fun ts => Multiset.ofList
          (if (Factory.allErrBefore f ts r &&
            decide ((f ts r).1 = DataFlag.NORMAL)) = true
            then (f ts r).2 else []))).sum := by
      unfold Factory.survivors
      rw [List.filter_filter]
      rw [flatten_filter_multiset plan _ (fun ts => (f ts r).2)]
      apply congrArg
      apply List.map_congr_left
      intro ts _
      rw [Bool.and_comm]
    rw [hflat, ← sum_map_add_multiset]
    apply congrArg
    apply List.map_congr_left
    intro ts _
    rw [rowsAcc_succ f r ts, Multiset.coe_add]

/-- If every unit's fetch turns `NORMAL` within the bound, no unit is
still in flight when round `m+1` would start. -/
theorem survivors_empty_of_normal (f : Int → Nat → DataFlag × List Factory.FRow)
    (m : Nat) (plan : List Int)
    (H : ∀ ts ∈ plan, ∃ k, k ≤ m ∧ (f ts k).1 = DataFlag.NORMAL) :
    Factory.survivors f plan (m + 1) = [] := by
  rw [Factory.survivors, List.filter_eq_nil_iff]
  intro ts hts hall
  obtain ⟨k, hk, hnorm⟩ := H ts hts
  have := (List.all_eq_true.mp hall) k (by simpa using Nat.lt_succ_of_le hk)
  rw [hnorm] at this
  simp at this

/-- With enough fuel the serialized engine reaches a canonical state
whose online queue is drained, having run at most `m+1` rounds. -/
theorem runRounds_drains (f : Int → Nat → DataFlag × List Factory.FRow)
    (m : Nat) (plan : List Int)
    (H : ∀ ts ∈ plan, ∃ k, k ≤ m ∧ (f ts k).1 = DataFlag.NORMAL) :
    ∀ (fuel r : Nat), r ≤ m + 1 → m + 2 ≤ r + fuel →
      ∃ r', r' ≤ m + 1 ∧ Factory.survivors f plan r' = [] ∧
        Factory.runRounds f m fuel (Factory.stateAt f plan r) =
          Factory.stateAt f plan r' := by
  intro fuel
  induction fuel with
  | zero => intro r h1 h2; omega
  | succ fuel ih =>
    intro r h1 h2
    by_cases hs : Factory.survivors f plan r = []
    · refine ⟨r, h1, hs, ?_⟩
      rw [Factory.runRounds, if_pos ⟨by simp [Factory.stateAt, hs], rfl⟩]
    · have hr : r ≤ m := by
        by_contra hc
        have hreq : r = m + 1 := by omega
        rw [hreq] at hs
        exact hs (survivors_empty_of_normal f m plan H)
      rw [runRounds_step f m plan r hr hs fuel]
      exact ih (r + 1) (by omega) (by omega)

/-- C1: if every planned unit's fetch returns `NORMAL` at some attempt
within the retry bound, the serialized engine terminates normally —
both queues drained, no abnormal info — and `complete` returns an
accumulator that equals, as a multiset, the union over the plan of each
unit's first-`NORMAL` row list, one contribution per unit. -/
theorem claim1_engine_completes_normally
    (f : Int → Nat → DataFlag × List Factory.FRow) (m : Nat) (plan : List Int)
    (H : ∀ ts ∈ plan, ∃ k, k ≤ m ∧ (f ts k).1 = DataFlag.NORMAL) :
    ∃ rows, Factory.complete f m plan (m + 2) = .ok rows ∧
      (Factory.runRounds f m (m + 2) (Factory.initState plan)).onlineQ = [] ∧
      (Factory.runRounds f m (m + 2) (Factory.initState plan)).localQ = [] ∧
      Multiset.ofList rows =
        (plan.map (fun ts =>
          Multiset.ofList (Factory.rowsAcc f (m + 1) ts))).sum := by
  obtain ⟨r', hr', hs', hrun⟩ :=
    runRounds_drains f m plan H (m + 2) 0 (by omega) (by omega)
  have hinit : Factory.runRounds f m (m + 2) (Factory.initState plan) =
      Factory.stateAt f plan r' := by
    rw [initState_eq_stateAt f plan, hrun]
  refine ⟨Factory.cacheUpTo f plan r', ?_, ?_, ?_, ?_⟩
  · unfold Factory.complete
    rw [hinit]
    rfl
  · rw [hinit]
    simp [Factory.stateAt, hs']
  · rw [hinit]
    rfl
  · rw [cacheUpTo_multiset f plan r']
    apply congrArg
    apply List.map_congr_left
    intro ts hts
    apply congrArg
    apply rowsAcc_stable f ts r' (m + 1) hr'
    unfold Factory.survivors at hs'
    rw [List.filter_eq_nil_iff] at hs'
    have := hs' ts hts
    cases hall : Factory.allErrBefore f ts r'
    · rfl
    · exact absurd hall (by simpa using this)

/-- C1 witness: two units, a fetch that errors on attempt 0 and
succeeds on attempt 1 with one row carrying the unit's timestamp,
`max_attempts = 1`. -/
theorem claim1_witness :
    (∀ ts ∈ [(1 : Int), 2], ∃ k, k ≤ 1 ∧
      ((fun (ts : Int) (a : Nat) =>
        if a = 0 then (DataFlag.ERROR, ([] : List Factory.FRow))
        else (DataFlag.NORMAL, [[ts]])) ts k).1 = DataFlag.NORMAL) ∧
    ∃ rows, Factory.complete
        (fun (ts : Int) (a : Nat) =>
          if a = 0 then (DataFlag.ERROR, ([] : List Factory.FRow))
          else (DataFlag.NORMAL, [[ts]])) 1 [1, 2] (1 + 2) = .ok rows ∧
      (Factory.runRounds
        (fun (ts : Int) (a : Nat) =>
          if a = 0 then (DataFlag.ERROR, ([] : List Factory.FRow))
          else (DataFlag.NORMAL, [[ts]])) 1 (1 + 2)
        (Factory.initState [1, 2])).onlineQ = [] ∧
      (Factory.runRounds
        (fun (ts : Int) (a : Nat) =>
          if a = 0 then (DataFlag.ERROR, ([] : List Factory.FRow))
          else (DataFlag.NORMAL, [[ts]])) 1 (1 + 2)
        (Factory.initState [1, 2])).localQ = [] ∧
      Multiset.ofList rows =
        (([(1 : Int), 2]).map (fun ts =>
          Multiset.ofList (Factory.rowsAcc
            (fun (ts : Int) (a : Nat) =>
              if a = 0 then (DataFlag.ERROR, ([] : List Factory.FRow))
              else (DataFlag.NORMAL, [[ts]])) (1 + 1) ts))).sum := by
  have hH : ∀ ts ∈ [(1 : Int), 2], ∃ k, k ≤ 1 ∧
      ((fun (ts : Int) (a : Nat) =>
        if a = 0 then (DataFlag.ERROR, ([] : List Factory.FRow))
        else (DataFlag.NORMAL, [[ts]])) ts k).1 = DataFlag.NORMAL :=
    fun ts _ => ⟨1, le_refl 1, rfl⟩
  exact ⟨hH, claim1_engine_completes_normally _ 1 [1, 2] hH⟩

/-- A single always-erroring unit survives every round. -/
theorem survivors_err (f : Int → Nat → DataFlag × List Factory.FRow) (ts : Int)
    (hE : ∀ k, (f ts k).1 = DataFlag.ERROR) (r : Nat) :
    Factory.survivors f [ts] r = [ts] := by
  unfold Factory.survivors
  rw [List.filter_eq_self]
  intro a ha
  rw [List.mem_singleton] at ha
  subst ha
  unfold Factory.allErrBefore
  rw [List.all_eq_true]
  intro j _
  simp [hE j]

/-- A single always-erroring unit never contributes rows. -/
theorem cacheUpTo_err (f : Int → Nat → DataFlag × List Factory.FRow) (ts : Int)
    (hE : ∀ k, (f ts k).1 = DataFlag.ERROR) :
    ∀ r, Factory.cacheUpTo f [ts] r = [] := by
  intro r
  induction r with
  | zero => rfl
  | succ r ih =>
    show Factory.cacheUpTo f [ts] r ++ _ = []
    rw [ih, survivors_err f ts hE r]
    rw [List.filter_cons]
    simp [hE r]

/-- The fetch log of a single always-erroring unit after `r` rounds:
one entry per attempt counter `0, …, r-1`. -/
theorem logUpTo_err (f : Int → Nat → DataFlag × List Factory.FRow) (ts : Int)
    (hE : ∀ k, (f ts k).1 = DataFlag.ERROR) :
    ∀ r, Factory.logUpTo f [ts] r = (List.range r).map (fun j => (ts, j)) := by
  intro r
  induction r with
  | zero => rfl
  | succ r ih =>
    show Factory.logUpTo f [ts] r ++ _ = _
    rw [ih, survivors_err f ts hE r, List.range_succ]
    simp

/-- For the single always-erroring unit, the engine walks the first
`m+1` rounds one unit of fuel each. -/
theorem runRounds_err_steps (f : Int → Nat → DataFlag × List Factory.FRow)
    (m : Nat) (ts : Int) (hE : ∀ k, (f ts k).1 = DataFlag.ERROR) :
    ∀ r, r ≤ m + 1 →
      Factory.runRounds f m (m + 3) (Factory.stateAt f [ts] 0) =
        Factory.runRounds f m (m + 3 - r) (Factory.stateAt f [ts] r) := by
  intro r
  induction r with
  | zero => intro _; rfl
  | succ r ih =>
    intro h
    rw [ih (by omega)]
    have hr : r ≤ m := by omega
    have hfuel : m + 3 - r = (m + 3 - (r + 1)) + 1 := by omega
    rw [hfuel, runRounds_step f m [ts] r hr (by rw [survivors_err f ts hE r]; simp)]

/-- C2 amended (exhibited for a single-unit plan under the serialized
schedule): a unit whose fetch always returns `ERROR` drives `complete`
into the retry-exhaustion failure whose message names the unit's
timestamp and the attempt count `max_attempts`, and the fetch operation
is invoked exactly `max_attempts + 2` times for that unit — the
iteration that detects the exceeded bound still performs one further
fetch before the workers observe the stop event. -/
theorem claim2_retry_exhaustion (f : Int → Nat → DataFlag × List Factory.FRow)
    (m : Nat) (ts : Int) (hE : ∀ k, (f ts k).1 = DataFlag.ERROR) :
    Factory.complete f m [ts] (m + 3) = .error (Factory.abnormalMsg (m + 1) ts) ∧
    ((Factory.runRounds f m (m + 3) (Factory.initState [ts])).fetchLog.filter
      (fun u => u.1 = ts)).length = m + 2 := by
  have hstate : Factory.stateAt f [ts] (m + 1) =
      ⟨[(ts, m + 1)], [], false, none, [],
        (List.range (m + 1)).map (fun j => (ts, j))⟩ := by
    unfold Factory.stateAt
    rw [survivors_err f ts hE (m + 1), cacheUpTo_err f ts hE (m + 1),
      logUpTo_err f ts hE (m + 1)]
    rfl
  have hround : Factory.roundStep f m
      (⟨[(ts, m + 1)], [], false, none, [],
        (List.range (m + 1)).map (fun j => (ts, j))⟩ : Factory.FacState) =
      ⟨[], [(ts, (f ts (m + 1)).2, (f ts (m + 1)).1, m + 2)], true,
        some (Factory.abnormalMsg (m + 1) ts), [],
        (List.range (m + 2)).map (fun j => (ts, j))⟩ := by
    unfold Factory.roundStep
    rw [show ((⟨[(ts, m + 1)], [], false, none, [],
        (List.range (m + 1)).map (fun j => (ts, j))⟩ : Factory.FacState)).onlineQ =
      [(ts, m + 1)] from rfl]
    rw [Factory.onlineLoop]
    simp only [Bool.false_eq_true, if_false, ite_false]
    rw [show (Factory.onlineItem f m
        (⟨[], [], false, none, [],
          (List.range (m + 1)).map (fun j => (ts, j))⟩ : Factory.FacState) ts (m + 1)) =
      ⟨[], [(ts, (f ts (m + 1)).2, (f ts (m + 1)).1, m + 2)], true,
        some (Factory.abnormalMsg (m + 1) ts), [],
        (List.range (m + 1)).map (fun j => (ts, j)) ++ [(ts, m + 1)]⟩ by
      unfold Factory.onlineItem
      rw [if_pos (Nat.lt_succ_self m)]
      rfl]
    rw [Factory.onlineLoop]
    rw [Factory.localLoop]
    rw [if_pos rfl]
    simp [List.range_succ]
  have hrun : Factory.runRounds f m (m + 3) (Factory.initState [ts]) =
      ⟨[], [(ts, (f ts (m + 1)).2, (f ts (m + 1)).1, m + 2)], true,
        some (Factory.abnormalMsg (m + 1) ts), [],
        (List.range (m + 2)).map (fun j => (ts, j))⟩ := by
    rw [initState_eq_stateAt f [ts]]
    rw [runRounds_err_steps f m ts hE (m + 1) (le_refl _)]
    rw [show m + 3 - (m + 1) = 2 by omega]
    rw [Factory.runRounds]
    rw [if_neg (by rw [hstate]; rintro ⟨hc, -⟩; exact List.noConfusion hc)]
    rw [if_neg (by rw [hstate]; simp)]
    rw [hstate, hround]
    rw [Factory.runRounds]
    rw [if_neg (by rintro ⟨-, hc⟩; exact List.noConfusion hc)]
    rw [if_pos rfl]
  constructor
  · unfold Factory.complete
    rw [hrun]
  · rw [hrun]
    show (((List.range (m + 2)).map (fun j => (ts, j))).filter
      (fun u => decide (u.1 = ts))).length = m + 2
    rw [List.filter_eq_self.mpr]
    · rw [List.length_map, List.length_range]
    · intro u hu
      obtain ⟨j, -, rfl⟩ := List.mem_map.mp hu
      simp

/-- C2 witness: `max_attempts = 1`, one unit at timestamp 5 whose fetch
always errors: `complete` fails with the message naming 5 and the
attempt count 1, after 3 fetches. -/
theorem claim2_witness :
    Factory.complete (fun _ _ => (DataFlag.ERROR, ([] : List Factory.FRow)))
        1 [5] (1 + 3) = .error (Factory.abnormalMsg (1 + 1) 5) ∧
    ((Factory.runRounds (fun _ _ => (DataFlag.ERROR, ([] : List Factory.FRow)))
        1 (1 + 3) (Factory.initState [5])).fetchLog.filter
      (fun u => u.1 = 5)).length = 1 + 2 :=
  claim2_retry_exhaustion (fun _ _ => (DataFlag.ERROR, [])) 1 5 (fun _ => rfl)

/-- C2 counterexample: with `max_attempts = 1` and an always-erroring
unit at timestamp 5, the fetch operation runs 3 times, not the claimed
`max_attempts + 1 = 2` times. -/
theorem claim2_counterexample :
    ((Factory.runRounds (fun _ _ => (DataFlag.ERROR, ([] : List Factory.FRow)))
        1 4 (Factory.initState [5])).fetchLog.filter
      (fun u => u.1 = 5)).length = 3 ∧
    ¬ ((Factory.runRounds (fun _ _ => (DataFlag.ERROR, ([] : List Factory.FRow)))
        1 4 (Factory.initState [5])).fetchLog.filter
      (fun u => u.1 = 5)).length = 1 + 1 := by
  decide

end FactoryTheorems
